import Mathlib

set_option maxRecDepth 100000
set_option maxHeartbeats 1000000

/-!
Verification development for `newmotion.py`, a single-file motion-detection
script: capture → grayscale/blur → absolute difference → threshold → dilate →
contours → area filter → annotate → (cooldown-gated) email notification →
conditional reference update, wrapped in a try/finally that releases the
camera and tears down the display windows.

The image-processing primitives are external library calls (OpenCV); they are
embedded here at their documented semantics, executable over a simple image
model.  The script's own control flow (the contour filter loop, the
notification gating, the reference update, the annotation step, the
try/finally cleanup and `send_notification`) is translated directly.
-/

namespace NewMotion

/-- Motion detection sensitivity, `MOTION_THRESHOLD = 25` in `newmotion.py`. -/
def MOTION_THRESHOLD : ℕ := 25

/-- Minimum contour area, `MIN_CONTOUR_AREA = 500` in `newmotion.py`. -/
def MIN_CONTOUR_AREA : ℕ := 500

/-- Delay between notifications in seconds, `NOTIFICATION_DELAY = 60`.
Timestamps are modelled as integers; the gating logic uses only subtraction
and order comparison, so nothing depends on the discretization. -/
def NOTIFICATION_DELAY : ℤ := 60

/-- A single-channel (grayscale) image: pixel value at row `i`, column `j`.
Grid dimensions are passed separately; only pixels with `i < h`, `j < w`
are meaningful. -/
def Img : Type := ℕ → ℕ → ℕ

/-- Model of `cv2.absdiff`: per-pixel absolute difference. -/
def absdiffImg (a b : Img) : Img := fun i j => Nat.dist (a i j) (b i j)

/-- Model of `cv2.threshold(src, t, maxval, cv2.THRESH_BINARY)` (the script
uses `t = MOTION_THRESHOLD`, `maxval = 255`): a pixel strictly above the
threshold becomes `maxval`, any other pixel becomes `0`. -/
def cvThreshold (src : Img) (t maxval : ℕ) : Img :=
  fun i j => if t < src i j then maxval else 0

/-- In-bounds test for a pixel on an `h × w` grid. -/
def inB (h w : ℕ) (p : ℕ × ℕ) : Bool := decide (p.1 < h) && decide (p.2 < w)

/-- The 3×3 neighbourhood of a pixel (clamped at 0 by ℕ subtraction;
duplicates at the border are harmless because only a max is taken). -/
def nbhd (i j : ℕ) : List (ℕ × ℕ) :=
  [(i-1, j-1), (i-1, j), (i-1, j+1),
   (i,   j-1), (i,   j), (i,   j+1),
   (i+1, j-1), (i+1, j), (i+1, j+1)]

/-- Model of one iteration of `cv2.dilate(m, None)`: morphological dilation
with the default 3×3 rectangular structuring element, i.e. a local maximum
over the in-bounds 3×3 neighbourhood. -/
def dilateOnce (h w : ℕ) (m : Img) : Img := fun i j =>
  ((nbhd i j).filter (inB h w)).foldl (fun acc q => max acc (m q.1 q.2)) 0

/-- Model of `cv2.dilate(m, None, iterations = n)` (the script uses `n = 2`). -/
def dilateIter (h w : ℕ) (m : Img) (n : ℕ) : Img := (dilateOnce h w)^[n] m

/-- Foreground test: `cv2.findContours` treats a nonzero pixel as foreground. -/
def fg (m : Img) (p : ℕ × ℕ) : Bool := m p.1 p.2 != 0

/-- 8-adjacency of two distinct pixels (OpenCV contours connect foreground
pixels with 8-connectivity). -/
def adj8 (p q : ℕ × ℕ) : Bool :=
  decide (p ≠ q) && decide (Nat.dist p.1 q.1 ≤ 1) && decide (Nat.dist p.2 q.2 ≤ 1)

/-- All pixels of an `h × w` grid, row-major. -/
def pixList (h w : ℕ) : List (ℕ × ℕ) := (List.range h).product (List.range w)

/-- One step of region growing: adjoin every in-bounds foreground pixel
adjacent to the set collected so far. -/
def expandOnce (h w : ℕ) (m : Img) (s : List (ℕ × ℕ)) : List (ℕ × ℕ) :=
  s ++ (pixList h w).filter
    (fun q => fg m q && decide (q ∉ s) && s.any (fun p => adj8 p q))

/-- The 8-connected component of foreground pixel `p`: region growing iterated
to a fixpoint (`h * w` steps always suffice). -/
def component (h w : ℕ) (m : Img) (p : ℕ × ℕ) : List (ℕ × ℕ) :=
  (expandOnce h w m)^[h * w] [p]

/-- Scan the grid in row-major order, emitting the component of every
foreground pixel not already covered by an earlier component. -/
def componentsAux (h w : ℕ) (m : Img) :
    List (ℕ × ℕ) → List (ℕ × ℕ) → List (List (ℕ × ℕ))
  | [], _ => []
  | p :: rest, seen =>
    if fg m p && decide (p ∉ seen) then
      component h w m p :: componentsAux h w m rest (seen ++ component h w m p)
    else componentsAux h w m rest seen

/-- Model of `cv2.findContours(m, cv2.RETR_EXTERNAL, ...)`: one contour per
8-connected component of the nonzero pixels, each represented by its pixel
set. -/
def findContours (h w : ℕ) (m : Img) : List (List (ℕ × ℕ)) :=
  componentsAux h w m (pixList h w) []

/-- Model of `cv2.contourArea`: the area enclosed by a contour, modelled as
the number of pixels of the corresponding component. -/
def contourArea (c : List (ℕ × ℕ)) : ℕ := c.length

/-- The contour filter loop of `newmotion.py` (lines 130–143): starting from
`motion_detected = False`, `motion_count = 0`, skip (`continue`) any contour
whose area is strictly below the minimum, and for every other contour set
`motion_detected = True`, increment `motion_count` and keep the contour. -/
def contourFold {α : Type} (area : α → ℕ) (minArea : ℕ) (contours : List α) :
    Bool × ℕ × List α :=
  contours.foldl
    (fun acc c => if area c < minArea then acc else (true, acc.2.1 + 1, acc.2.2 ++ [c]))
    (false, 0, [])

/-- The detector stage of one loop iteration (lines 119–140): absolute
difference, binary threshold at `MOTION_THRESHOLD`, dilation with 2
iterations, external contours, and the area filter loop.  Returns
`(motion_detected, motion_count, surviving contours)`. -/
def detect (h w : ℕ) (g1 g2 : Img) : Bool × ℕ × List (List (ℕ × ℕ)) :=
  let diff := absdiffImg g1 g2
  let thresh := cvThreshold diff MOTION_THRESHOLD 255
  let dil := dilateIter h w thresh 2
  contourFold contourArea MIN_CONTOUR_AREA (findContours h w dil)

/-- The `motion_detected` flag computed by one iteration's detector stage. -/
def motionOf (h w : ℕ) (g1 g2 : Img) : Bool := (detect h w g1 g2).1

/-! ### Notifier (`send_notification`, lines 32–67, and its caller, lines 158–166) -/

/-- The ways the SMTP session inside the `try` block of `send_notification`
can end: success, `smtplib.SMTPAuthenticationError`, any other
`smtplib.SMTPException`, or any other `Exception`. -/
inductive SendOutcome : Type
  | success
  | authFailure
  | smtpFailure
  | unexpectedFailure
deriving DecidableEq

/-- Translation of `send_notification` (lines 32–67).  `password` is the
value of `SENDER_PASSWORD` (`none` when the variable is unset, and the empty
string is also falsy in Python); `outcome` abstracts how the external SMTP
session ends.  Every path returns a Boolean success flag together with the
diagnostics it prints; no path raises, which the embedding renders as
totality of this function. -/
def send_notification (password : Option String) (outcome : SendOutcome) :
    Bool × List String :=
  if password = none ∨ password = some "" then
    (false, ["Error: SENDER_PASSWORD not set in .env file"])
  else
    match outcome with
    | .success => (true, ["Notification email sent successfully!"])
    | .authFailure => (false, ["Error: SMTP Authentication Failed."])
    | .smtpFailure => (false, ["Error sending email"])
    | .unexpectedFailure => (false, ["An unexpected error occurred"])

/-- Initial value of `last_notification_time` (line 93). -/
def initialLastNotificationTime : ℤ := 0

/-- Translation of the notification gating in the main loop (lines 158–166):
if `motion_detected` and `now - last_notification_time > NOTIFICATION_DELAY`,
call the notifier; if it returns `True`, set `last_notification_time` to the
current time.  `sendOk` is the notifier's return value.  Returns the new
`last_notification_time`, whether the notifier was invoked, and whether a
successful send was recorded. -/
def notificationStep (motionDetected : Bool) (now : ℤ) (sendOk : Bool)
    (last : ℤ) : ℤ × Bool × Bool :=
  if motionDetected = true ∧ now - last > NOTIFICATION_DELAY then
    (if sendOk then now else last, true, sendOk)
  else
    (last, false, false)

/-- Run the notification gating over a list of iterations, each given as
`(motion_detected, current time, notifier result)`; returns the final
`last_notification_time` and the number of successful sends recorded. -/
def runNotifications (events : List (Bool × ℤ × Bool)) (last0 : ℤ) : ℤ × ℕ :=
  events.foldl
    (fun st e =>
      let r := notificationStep e.1 e.2.1 e.2.2 st.1
      (r.1, st.2 + if r.2.2 then 1 else 0))
    (last0, 0)

/-! ### Reference updater (lines 114–116 and 174–175) -/

/-- Translation of the reference update (lines 174–175): `gray1` is replaced
by `gray2` exactly when no motion was detected. -/
def referenceUpdate (motionDetected : Bool) (gray1 gray2 : Img) : Img :=
  if motionDetected then gray1 else gray2

/-- Run the reference update over a list of captured frames.  `prep` models
the prepare stage (lines 115–116: grayscale conversion then 21×21 Gaussian
blur, an external deterministic transformation), and the motion flag of each
iteration is the one `detect` computes from the current reference and the
prepared frame. -/
def refRun {F : Type} (h w : ℕ) (prep : F → Img) (g : Img) (frames : List F) :
    Img :=
  frames.foldl
    (fun g1 f => referenceUpdate (motionOf h w g1 (prep f)) g1 (prep f)) g

/-- Decides that no iteration of a run detects motion: at each step the
detector compares the current reference with the prepared frame, and (since
the flag is false) the reference then becomes that prepared frame. -/
def noMotionTrace {F : Type} (h w : ℕ) (prep : F → Img) :
    Img → List F → Bool
  | _, [] => true
  | g, f :: fs => !motionOf h w g (prep f) && noMotionTrace h w prep (prep f) fs

/-! ### Annotator (lines 143–155) -/

/-- A color (BGR) image. -/
def CImg : Type := ℕ → ℕ → ℕ × ℕ × ℕ

/-- A bounding rectangle as returned by `cv2.boundingRect`: top-left corner
`(x, y)` (column, row) plus width and height. -/
structure Rect : Type where
  x : ℕ
  y : ℕ
  w : ℕ
  h : ℕ
deriving DecidableEq

/-- Model of `cv2.boundingRect`: the minimal axis-aligned rectangle
containing a contour's pixels. -/
def boundingRect (c : List (ℕ × ℕ)) : Rect :=
  let xs := c.map Prod.snd
  let ys := c.map Prod.fst
  { x := xs.foldr min 0
    y := ys.foldr min 0
    w := xs.foldr max 0 + 1 - xs.foldr min 0
    h := ys.foldr max 0 + 1 - ys.foldr min 0 }

/-- The fixed rectangle color of line 146: green, in BGR. -/
def GREEN : ℕ × ℕ × ℕ := (0, 255, 0)

/-- Whether pixel `(i, j)` (row, column) lies on the 2-pixel stroke drawn by
`cv2.rectangle(frame, (x, y), (x + w, y + h), GREEN, 2)`: inside a band
around the rectangle outline from corner `(x, y)` to corner
`(x + w, y + h)`. -/
def onRectBorder (r : Rect) (i j : ℕ) : Bool :=
  let withinOuter :=
    decide (r.x ≤ j + 1) && decide (j ≤ r.x + r.w + 1) &&
    decide (r.y ≤ i + 1) && decide (i ≤ r.y + r.h + 1)
  let withinInner :=
    decide (r.x + 1 < j) && decide (j + 1 < r.x + r.w) &&
    decide (r.y + 1 < i) && decide (i + 1 < r.y + r.h)
  withinOuter && !withinInner

/-- Model of `cv2.rectangle(img, (x, y), (x + w, y + h), (0, 255, 0), 2)`
(line 146): the stroke pixels become green, every other pixel keeps the value
of `img`. -/
def drawRectangle (img : CImg) (r : Rect) : CImg :=
  fun i j => if onRectBorder r i j then GREEN else img i j

/-- The annotation performed on the current frame during one iteration
(lines 146–155), in source order: one green rectangle per detected region
(drawn inside the contour loop), then the timestamp text, then — only when
motion was detected — the status text.  The two text overlays are external
rendering primitives (`cv2.putText`) and are taken as parameters. -/
def annotateFrame (putTimestamp putStatus : CImg → CImg) (regions : List Rect)
    (motionDetected : Bool) (frame : CImg) : CImg :=
  let withRects := regions.foldl drawRectangle frame
  let withTime := putTimestamp withRects
  if motionDetected then putStatus withTime else withTime

/-- The `frame2` buffer of one loop iteration: the array returned by
`cap.read()` (line 107), which is the one the drawing calls receive. -/
structure FrameBuffer : Type where
  frame2 : CImg

/-- The annotation stage as it acts on the iteration's buffers: every drawing
call of lines 146–155 receives `frame2` itself (the script makes no copy), so
after the stage the `frame2` buffer holds the annotated image. -/
def annotationStage (putTimestamp putStatus : CImg → CImg) (regions : List Rect)
    (motionDetected : Bool) (b : FrameBuffer) : FrameBuffer :=
  ⟨annotateFrame putTimestamp putStatus regions motionDetected b.frame2⟩

/-! ### Control flow and cleanup (lines 70–198) -/

/-- Observable resource events of a program run. -/
inductive Event : Type
  | openCamera
  | releaseCamera
  | destroyWindows
  | processExit
deriving DecidableEq

/-- How the main loop (lines 105–188) ends: the camera read fails
(line 108), the quit key is pressed (line 179), or an unhandled exception
escapes the loop body. -/
inductive LoopEnd : Type
  | endOfStream
  | quitKey
  | fault
deriving DecidableEq

/-- The possible shapes of a run of the `try` block (lines 70–188):
`cap.isOpened()` is false (line 75), the first `cap.read()` fails (line 83),
or the main loop runs and ends some way. -/
inductive Scenario : Type
  | openFail
  | firstReadFail
  | run (e : LoopEnd)
deriving DecidableEq

/-- Whether the camera was successfully opened during the `try` block. -/
def cameraOpened : Scenario → Bool
  | .openFail => false
  | .firstReadFail => true
  | .run _ => true

/-- Resource events produced by the `try` block itself: on a first-read
failure the script releases the camera explicitly (line 85) before calling
`exit()`; no other path of the block releases it. -/
def tryEvents : Scenario → List Event
  | .openFail => []
  | .firstReadFail => [.openCamera, .releaseCamera]
  | .run _ => [.openCamera]

/-- Whether `cap.isOpened()` still holds when the `finally` block starts. -/
def capOpenAtFinally : Scenario → Bool
  | .openFail => false
  | .firstReadFail => false
  | .run _ => true

/-- Translation of the `finally` block (lines 190–197): release the camera
when it is still open, then destroy all windows. -/
def finallyEvents (capOpen : Bool) : List Event :=
  (if capOpen then [.releaseCamera] else []) ++ [.destroyWindows]

/-- The resource-event trace of a whole run: the `try` block's events, then
the `finally` block's, then process exit.  Python runs the `finally` block on
every way out of the `try` block — `break`, `exit()` (which raises
`SystemExit`) and unhandled exceptions alike — and the process exits only
afterwards. -/
def programTrace (s : Scenario) : List Event :=
  tryEvents s ++ finallyEvents (capOpenAtFinally s) ++ [.processExit]

/-! ### Concrete instances used in closed statements -/

/-- An all-black reference image. -/
def g1Block : Img := fun _ _ => 0

/-- A frame that differs from `g1Block` exactly on the 22×22 block of pixels
whose row and column both lie in `[2, 24)` — a single contiguous (solid
axis-aligned rectangular) changed block of 484 pixels, each differing by 200,
well above the sensitivity. -/
def g2Block : Img := fun i j =>
  if 2 ≤ i ∧ i < 24 ∧ 2 ≤ j ∧ j < 24 then 200 else 0

/-- The thresholded difference mask of `g1Block` and `g2Block`. -/
def blockMask : Img :=
  cvThreshold (absdiffImg g1Block g2Block) MOTION_THRESHOLD 255

/-- An all-black color frame. -/
def frame0 : CImg := fun _ _ => (0, 0, 0)

/-- A small detected region. -/
def rect0 : Rect := ⟨1, 1, 2, 2⟩

/-! ### Helper lemmas -/

theorem contourFold_foldl {α : Type} (area : α → ℕ) (minArea : ℕ) (cs : List α)
    (b : Bool) (n : ℕ) (acc : List α) :
    cs.foldl
        (fun acc c =>
          if area c < minArea then acc else (true, acc.2.1 + 1, acc.2.2 ++ [c]))
        (b, n, acc) =
      (b || !(cs.filter (fun c => !decide (area c < minArea))).isEmpty,
       n + (cs.filter (fun c => !decide (area c < minArea))).length,
       acc ++ cs.filter (fun c => !decide (area c < minArea))) := by
  induction cs generalizing b n acc with
  | nil => simp
  | cons c cs ih =>
    rw [List.foldl_cons]
    by_cases hc : area c < minArea
    · rw [if_pos hc, ih]
      simp [List.filter_cons, hc]
    · rw [if_neg hc, ih]
      simp only [List.filter_cons, decide_eq_false hc, Bool.not_false, if_pos rfl,
        Prod.mk.injEq]
      refine ⟨by simp, by simp [Nat.add_assoc, Nat.add_comm], by simp⟩

theorem contourFold_spec {α : Type} (area : α → ℕ) (minArea : ℕ) (cs : List α) :
    contourFold area minArea cs =
      (!(cs.filter (fun c => !decide (area c < minArea))).isEmpty,
       (cs.filter (fun c => !decide (area c < minArea))).length,
       cs.filter (fun c => !decide (area c < minArea))) := by
  unfold contourFold
  rw [contourFold_foldl]
  simp

theorem contourFold_false_of_all {α : Type} (area : α → ℕ) (minArea : ℕ)
    (cs : List α) (hall : ∀ c ∈ cs, area c < minArea) :
    (contourFold area minArea cs).1 = false := by
  rw [contourFold_spec]
  have : cs.filter (fun c => !decide (area c < minArea)) = [] := by
    rw [List.filter_eq_nil_iff]
    intro c hc
    simp [hall c hc]
  simp [this]

theorem contourFold_true_of_mem {α : Type} (area : α → ℕ) (minArea : ℕ)
    (cs : List α) (c : α) (hc : c ∈ cs) (hbig : ¬ area c < minArea) :
    (contourFold area minArea cs).1 = true := by
  rw [contourFold_spec]
  have : c ∈ cs.filter (fun c => !decide (area c < minArea)) :=
    List.mem_filter.mpr ⟨hc, by simp [hbig]⟩
  simp only [Bool.not_eq_true', List.isEmpty_eq_false_iff_exists_mem]
  exact ⟨c, this⟩

theorem mem_pixList (h w : ℕ) (p : ℕ × ℕ) :
    p ∈ pixList h w ↔ p.1 < h ∧ p.2 < w := by
  cases p with
  | mk a b =>
    simp [pixList, List.product, List.mem_flatMap, List.mem_range, Prod.ext_iff]

theorem nodup_pixList (h w : ℕ) : (pixList h w).Nodup := by
  show ((List.range h) ×ˢ (List.range w)).Nodup
  exact (List.nodup_range _).product (List.nodup_range _)

theorem subset_expandOnce (h w : ℕ) (m : Img) (s : List (ℕ × ℕ)) :
    s ⊆ expandOnce h w m s := fun _ hx => List.mem_append_left _ hx

theorem subset_expandOnce_iterate (h w : ℕ) (m : Img) (s : List (ℕ × ℕ)) (k : ℕ) :
    s ⊆ (expandOnce h w m)^[k] s := by
  induction k with
  | zero => intro x hx; simpa using hx
  | succ k ih =>
    rw [Function.iterate_succ_apply']
    exact fun x hx => subset_expandOnce h w m _ (ih hx)

theorem iterate_mono_fuel (h w : ℕ) (m : Img) (s : List (ℕ × ℕ)) {a b : ℕ}
    (hab : a ≤ b) :
    (expandOnce h w m)^[a] s ⊆ (expandOnce h w m)^[b] s := by
  obtain ⟨k, rfl⟩ := Nat.exists_eq_add_of_le hab
  rw [Nat.add_comm, Function.iterate_add_apply]
  exact subset_expandOnce_iterate h w m _ k

theorem mem_expandOnce_step (h w : ℕ) (m : Img) (s : List (ℕ × ℕ)) (p q : ℕ × ℕ)
    (hp : p ∈ s) (hq : q ∈ pixList h w) (hfg : fg m q = true)
    (hadj : adj8 p q = true) :
    q ∈ expandOnce h w m s := by
  by_cases hqs : q ∈ s
  · exact List.mem_append_left _ hqs
  · refine List.mem_append_right _ (List.mem_filter.mpr ⟨hq, ?_⟩)
    simp only [Bool.and_eq_true, decide_eq_true_eq, List.any_eq_true]
    exact ⟨⟨hfg, hqs⟩, ⟨p, hp, hadj⟩⟩

theorem component_covers_of_full (h w : ℕ) (m : Img)
    (hfg : ∀ p ∈ pixList h w, fg m p = true) :
    ∀ n, ∀ q ∈ pixList h w, max q.1 q.2 ≤ n →
      q ∈ (expandOnce h w m)^[n] [(0, 0)] := by
  intro n
  induction n with
  | zero =>
    intro q hq hmax
    have h1 : q.1 = 0 := Nat.le_zero.mp ((Nat.le_max_left _ _).trans hmax)
    have h2 : q.2 = 0 := Nat.le_zero.mp ((Nat.le_max_right _ _).trans hmax)
    cases q
    simp_all
  | succ n ih =>
    intro q hq hmax
    by_cases hle : max q.1 q.2 ≤ n
    · exact iterate_mono_fuel h w m _ (Nat.le_succ n) (ih q hq hle)
    · have hq1 : q.1 ≤ n + 1 := (Nat.le_max_left _ _).trans hmax
      have hq2 : q.2 ≤ n + 1 := (Nat.le_max_right _ _).trans hmax
      have hpos : 1 ≤ q.1 ∨ 1 ≤ q.2 := by
        by_contra hcon
        push_neg at hcon
        apply hle
        have e1 : q.1 = 0 := by omega
        have e2 : q.2 = 0 := by omega
        rw [e1, e2]
        simp
      have hq'mem : (q.1 - 1, q.2 - 1) ∈ pixList h w := by
        rw [mem_pixList] at hq ⊢
        constructor <;> simp <;> omega
      have hmax' : max (q.1 - 1) (q.2 - 1) ≤ n :=
        Nat.max_le.mpr ⟨by omega, by omega⟩
      have hne : (q.1 - 1, q.2 - 1) ≠ q := by
        intro he
        have e1 : q.1 - 1 = q.1 := congrArg Prod.fst he
        have e2 : q.2 - 1 = q.2 := congrArg Prod.snd he
        omega
      have hadj : adj8 (q.1 - 1, q.2 - 1) q = true := by
        simp only [adj8, Bool.and_eq_true, decide_eq_true_eq]
        refine ⟨⟨hne, ?_⟩, ?_⟩ <;> simp [Nat.dist] <;> omega
      rw [Function.iterate_succ_apply']
      exact mem_expandOnce_step h w m _ _ q (ih _ hq'mem hmax') hq (hfg q hq) hadj

theorem absdiffImg_self (g : Img) : absdiffImg g g = fun _ _ => 0 := by
  funext i j
  simp [absdiffImg, Nat.dist_self]

theorem cvThreshold_zero (t maxval : ℕ) :
    cvThreshold (fun _ _ => 0) t maxval = fun _ _ => 0 := by
  funext i j
  simp [cvThreshold]

theorem foldl_max_zero (m : Img) (hm : ∀ i j, m i j = 0) :
    ∀ (l : List (ℕ × ℕ)) (a : ℕ),
      l.foldl (fun acc q => max acc (m q.1 q.2)) a = a := by
  intro l
  induction l with
  | nil => intro a; rfl
  | cons q l ih =>
    intro a
    rw [List.foldl_cons, hm, Nat.max_zero]
    exact ih a

theorem dilateOnce_zero (h w : ℕ) :
    dilateOnce h w (fun _ _ => 0) = fun _ _ => 0 := by
  funext i j
  exact foldl_max_zero _ (fun _ _ => rfl) _ 0

theorem dilateIter_zero (h w n : ℕ) :
    dilateIter h w (fun _ _ => 0) n = fun _ _ => 0 := by
  induction n with
  | zero => rfl
  | succ n ih =>
    rw [dilateIter, Function.iterate_succ_apply']
    rw [dilateIter] at ih
    rw [ih, dilateOnce_zero]

theorem componentsAux_nil_of_bg (h w : ℕ) (m : Img) (hm : ∀ p, fg m p = false) :
    ∀ (l seen : List (ℕ × ℕ)), componentsAux h w m l seen = [] := by
  intro l
  induction l with
  | nil => intro seen; rfl
  | cons p rest ih =>
    intro seen
    simp only [componentsAux, hm p, Bool.false_and, Bool.false_eq_true, if_false]
    exact ih seen

theorem findContours_zero (h w : ℕ) : findContours h w (fun _ _ => 0) = [] :=
  componentsAux_nil_of_bg h w (fun _ _ => 0) (fun _ => rfl) _ _

theorem foldl_drawRectangle_untouched (i j : ℕ) :
    ∀ (rs : List Rect) (img : CImg),
      (∀ r ∈ rs, onRectBorder r i j = false) →
      rs.foldl drawRectangle img i j = img i j := by
  intro rs
  induction rs with
  | nil => intro img _; rfl
  | cons r rs ih =>
    intro img hr
    rw [List.foldl_cons, ih _ (fun r' h' => hr r' (List.mem_cons_of_mem _ h'))]
    simp [drawRectangle, hr r (List.mem_cons_self r rs)]

theorem foldl_drawRectangle_green (i j : ℕ) :
    ∀ (rs : List Rect) (img : CImg),
      (∃ r ∈ rs, onRectBorder r i j = true) →
      rs.foldl drawRectangle img i j = GREEN := by
  intro rs
  induction rs with
  | nil => intro img hex; simp at hex
  | cons r rs ih =>
    intro img hex
    rw [List.foldl_cons]
    by_cases hrs : ∃ r' ∈ rs, onRectBorder r' i j = true
    · exact ih _ hrs
    · push_neg at hrs
      have hfalse : ∀ r' ∈ rs, onRectBorder r' i j = false := by
        intro r' h'
        have := hrs r' h'
        revert this
        cases onRectBorder r' i j <;> simp
      have hr : onRectBorder r i j = true := by
        obtain ⟨r', hr', hb⟩ := hex
        rcases List.mem_cons.mp hr' with rfl | hmem
        · exact hb
        · exact absurd hb (by simp [hfalse r' hmem])
      rw [foldl_drawRectangle_untouched i j rs _ hfalse]
      simp [drawRectangle, hr]

theorem foldl_max_ge (m : Img) :
    ∀ (l : List (ℕ × ℕ)) (a : ℕ),
      a ≤ l.foldl (fun acc r => max acc (m r.1 r.2)) a := by
  intro l
  induction l with
  | nil => intro a; exact Nat.le_refl a
  | cons r l ih =>
    intro a
    rw [List.foldl_cons]
    exact (Nat.le_max_left _ _).trans (ih _)

theorem foldl_max_ge_elem (m : Img) :
    ∀ (l : List (ℕ × ℕ)) (a : ℕ) (q : ℕ × ℕ), q ∈ l →
      m q.1 q.2 ≤ l.foldl (fun acc r => max acc (m r.1 r.2)) a := by
  intro l
  induction l with
  | nil => intro a q hq; exact absurd hq (List.not_mem_nil q)
  | cons r l ih =>
    intro a q hq
    rw [List.foldl_cons]
    rcases List.mem_cons.mp hq with rfl | hmem
    · exact (Nat.le_max_right _ _).trans (foldl_max_ge m l _)
    · exact ih _ q hmem

theorem fg_dilateOnce_of (h w : ℕ) (m : Img) (i j : ℕ) (q : ℕ × ℕ)
    (hmem : q ∈ nbhd i j) (hin : inB h w q = true) (hfgq : fg m q = true) :
    fg (dilateOnce h w m) (i, j) = true := by
  have hql : q ∈ (nbhd i j).filter (inB h w) := List.mem_filter.mpr ⟨hmem, hin⟩
  have hle := foldl_max_ge_elem m ((nbhd i j).filter (inB h w)) 0 q hql
  have hpos : m q.1 q.2 ≠ 0 := by simpa [fg, bne_iff_ne] using hfgq
  simp only [fg, dilateOnce, bne_iff_ne]
  omega

theorem mem_nbhd_of_dist (i j a b : ℕ) (ha : Nat.dist a i ≤ 1)
    (hb : Nat.dist b j ≤ 1) : (a, b) ∈ nbhd i j := by
  have ha' : a = i - 1 ∨ a = i ∨ a = i + 1 := by
    simp [Nat.dist] at ha
    omega
  have hb' : b = j - 1 ∨ b = j ∨ b = j + 1 := by
    simp [Nat.dist] at hb
    omega
  rcases ha' with rfl | rfl | rfl <;> rcases hb' with rfl | rfl | rfl <;>
    simp [nbhd]

theorem clamp_two_steps (i : ℕ) (hi : i < 26) :
    ∃ a1 a2 : ℕ, Nat.dist i a1 ≤ 1 ∧ Nat.dist a1 a2 ≤ 1
      ∧ 2 ≤ a2 ∧ a2 < 24 ∧ a1 < 26 := by
  refine ⟨min (max i 1) 24, min (max i 2) 23, ?_, ?_, ?_, ?_, ?_⟩ <;>
    simp [Nat.dist] <;> omega

theorem blockMask_fg (a b : ℕ) (h1 : 2 ≤ a) (h2 : a < 24) (h3 : 2 ≤ b)
    (h4 : b < 24) : fg blockMask (a, b) = true := by
  have hg2 : g2Block a b = 200 := if_pos ⟨h1, h2, h3, h4⟩
  simp [fg, blockMask, cvThreshold, absdiffImg, g1Block, hg2, Nat.dist,
    MOTION_THRESHOLD]

theorem blockMask_dilated_full :
    ∀ p ∈ pixList 26 26, fg (dilateIter 26 26 blockMask 2) p = true := by
  intro p hp
  obtain ⟨hp1, hp2⟩ := (mem_pixList 26 26 p).mp hp
  obtain ⟨i, j⟩ := p
  obtain ⟨a1, a2, hia1, ha12, ha2l, ha2r, ha1b⟩ := clamp_two_steps i hp1
  obtain ⟨b1, b2, hjb1, hb12, hb2l, hb2r, hb1b⟩ := clamp_two_steps j hp2
  have hq2 : fg blockMask (a2, b2) = true :=
    blockMask_fg a2 b2 ha2l ha2r hb2l hb2r
  have hq1 : fg (dilateOnce 26 26 blockMask) (a1, b1) = true := by
    apply fg_dilateOnce_of 26 26 blockMask a1 b1 (a2, b2)
    · refine mem_nbhd_of_dist a1 b1 a2 b2 ?_ ?_
      · rw [Nat.dist_comm]; exact ha12
      · rw [Nat.dist_comm]; exact hb12
    · simp only [inB, Bool.and_eq_true, decide_eq_true_eq]
      exact ⟨by omega, by omega⟩
    · exact hq2
  have hfinal : fg (dilateOnce 26 26 (dilateOnce 26 26 blockMask)) (i, j)
      = true := by
    apply fg_dilateOnce_of 26 26 (dilateOnce 26 26 blockMask) i j (a1, b1)
    · refine mem_nbhd_of_dist i j a1 b1 ?_ ?_
      · rw [Nat.dist_comm]; exact hia1
      · rw [Nat.dist_comm]; exact hjb1
    · simp only [inB, Bool.and_eq_true, decide_eq_true_eq]
      exact ⟨by omega, by omega⟩
    · exact hq1
  exact hfinal

theorem mem_componentsAux_head (h w : ℕ) (m : Img) (p : ℕ × ℕ)
    (rest seen : List (ℕ × ℕ)) (hfgp : fg m p = true) (hseen : p ∉ seen) :
    component h w m p ∈ componentsAux h w m (p :: rest) seen := by
  simp only [componentsAux, hfgp, decide_eq_true hseen, Bool.and_self,
    if_true]
  exact List.mem_cons_self _ _

theorem refRun_no_motion {F : Type} (h w : ℕ) (prep : F → Img) :
    ∀ (frames : List F) (g : Img) (lastf : F),
      noMotionTrace h w prep g frames = true →
      frames.getLast? = some lastf →
      refRun h w prep g frames = prep lastf := by
  intro frames
  induction frames with
  | nil =>
    intro g lastf _ h2
    simp at h2
  | cons f fs ih =>
    intro g lastf h1 h2
    simp only [noMotionTrace, Bool.and_eq_true, Bool.not_eq_true'] at h1
    obtain ⟨hmd, htr⟩ := h1
    rw [refRun, List.foldl_cons, hmd]
    have hupd : referenceUpdate false g (prep f) = prep f := rfl
    rw [hupd]
    cases fs with
    | nil =>
      simp only [List.getLast?_singleton, Option.some.injEq] at h2
      rw [List.foldl_nil, h2]
    | cons f2 fs2 =>
      rw [List.getLast?_cons_cons] at h2
      exact ih (prep f) lastf htr h2

theorem notificationStep_failed (md : Bool) (now last : ℤ) :
    (notificationStep md now false last).1 = last := by
  by_cases hgate : md = true ∧ now - last > NOTIFICATION_DELAY
  · simp [notificationStep, hgate]
  · simp [notificationStep, hgate]

/-! ### Claims -/

/-- Claim C1: for every list of contours, the filter loop discards exactly
those contours whose area is strictly below `minArea` (whose default,
`MIN_CONTOUR_AREA`, is 500), reports `motion_detected = true` iff at least
one contour survives, and reports `motion_count` equal to the number of
surviving contours (which it also keeps, in order). -/
theorem C1_contour_filter {α : Type} (area : α → ℕ) (minArea : ℕ)
    (contours : List α) :
    contourFold area minArea contours =
      (!(contours.filter (fun c => !decide (area c < minArea))).isEmpty,
       (contours.filter (fun c => !decide (area c < minArea))).length,
       contours.filter (fun c => !decide (area c < minArea)))
    ∧ ((contourFold area minArea contours).1 = true ↔
        ∃ c ∈ contours, ¬ area c < minArea)
    ∧ MIN_CONTOUR_AREA = 500 := by
  refine ⟨contourFold_spec area minArea contours, ?_, rfl⟩
  rw [contourFold_spec]
  simp [List.isEmpty_eq_false_iff_exists_mem, List.mem_filter]

/-- Claim C2: the notifier is invoked iff motion was detected and
`now - last_notification_time > NOTIFICATION_DELAY` (strictly); on success
the stored timestamp becomes `now`, on failure (and when the gate is closed)
it is unchanged; consequently, two motion events with successful sends whose
separation is below the cooldown record exactly one successful send, and
above it, two. -/
theorem C2_notification_cooldown (md sendOk : Bool) (now last last0 t1 t2 : ℤ)
    (h1 : t1 - last0 > NOTIFICATION_DELAY) :
    ((notificationStep md now sendOk last).2.1 = true ↔
      (md = true ∧ now - last > NOTIFICATION_DELAY))
    ∧ (md = true → now - last > NOTIFICATION_DELAY → sendOk = true →
        (notificationStep md now sendOk last).1 = now)
    ∧ (sendOk = false → (notificationStep md now sendOk last).1 = last)
    ∧ (¬ (md = true ∧ now - last > NOTIFICATION_DELAY) →
        (notificationStep md now sendOk last).1 = last)
    ∧ (t2 - t1 < NOTIFICATION_DELAY →
        (runNotifications [(true, t1, true), (true, t2, true)] last0).2 = 1)
    ∧ (t2 - t1 > NOTIFICATION_DELAY →
        (runNotifications [(true, t1, true), (true, t2, true)] last0).2 = 2) := by
  refine ⟨?_, ?_, ?_, ?_, ?_, ?_⟩
  · by_cases hgate : md = true ∧ now - last > NOTIFICATION_DELAY <;>
      simp [notificationStep, hgate]
  · intro hmd hdelay hok
    simp [notificationStep, hmd, hdelay, hok]
  · intro hok
    rw [hok]
    exact notificationStep_failed md now last
  · intro hgate
    simp [notificationStep, hgate]
  · intro hlt
    have hng : ¬ NOTIFICATION_DELAY < t2 - t1 := by omega
    simp [runNotifications, notificationStep, h1, hng]
  · intro hgt
    simp [runNotifications, notificationStep, h1, hgt]

theorem C2_notification_cooldown_witness :
    ((100 : ℤ) - 0 > NOTIFICATION_DELAY)
    ∧ (runNotifications [(true, 100, true), (true, 130, true)] 0).2 = 1
    ∧ (runNotifications [(true, 100, true), (true, 200, true)] 0).2 = 2 :=
  ⟨by decide,
   (C2_notification_cooldown true true 0 0 0 100 130 (by decide)).2.2.2.2.1
     (by decide),
   (C2_notification_cooldown true true 0 0 0 100 200 (by decide)).2.2.2.2.2
     (by decide)⟩

/-- Claim C3: the stored reference is replaced by the prepared current frame
exactly when no motion was detected and retained unchanged otherwise; hence
after a run of iterations in none of which motion is detected, the reference
equals the prepared form of the most recently captured frame. -/
theorem C3_reference_update {F : Type} (h w : ℕ) (prep : F → Img) (md : Bool)
    (g1 g2 g : Img) (frames : List F) (lastf : F)
    (hnm : noMotionTrace h w prep g frames = true)
    (hlast : frames.getLast? = some lastf) :
    (md = false → referenceUpdate md g1 g2 = g2)
    ∧ (md = true → referenceUpdate md g1 g2 = g1)
    ∧ refRun h w prep g frames = prep lastf := by
  refine ⟨fun hmd => by simp [referenceUpdate, hmd],
          fun hmd => by simp [referenceUpdate, hmd],
          refRun_no_motion h w prep frames g lastf hnm hlast⟩

theorem C3_reference_update_witness :
    noMotionTrace 1 1 (fun _ : Unit => (fun _ _ => 0 : Img))
        (fun _ _ => 0) [(), ()] = true
    ∧ refRun 1 1 (fun _ : Unit => (fun _ _ => 0 : Img))
        (fun _ _ => 0) [(), ()] = (fun _ _ => 0 : Img) :=
  ⟨by decide,
   (C3_reference_update 1 1 (fun _ : Unit => (fun _ _ => 0 : Img)) false
     (fun _ _ => 0) (fun _ _ => 0) (fun _ _ => 0) [(), ()] ()
     (by decide) rfl).2.2⟩

/-- Claim C4: for every pair of identical frames, the prepared
representations are equal, the per-pixel absolute difference is the all-zero
map, no contour exists (no pixel exceeds the threshold, and dilation of the
all-zero mask is all-zero), and the detector reports
`motion_detected = false` with zero count. -/
theorem C4_identical_frames {F : Type} (h w : ℕ) (prep : F → Img)
    (fa fb : F) (hab : fa = fb) :
    prep fa = prep fb
    ∧ absdiffImg (prep fa) (prep fb) = (fun _ _ => 0)
    ∧ findContours h w
        (dilateIter h w
          (cvThreshold (absdiffImg (prep fa) (prep fb)) MOTION_THRESHOLD 255) 2)
        = []
    ∧ detect h w (prep fa) (prep fb) = (false, 0, []) := by
  subst hab
  refine ⟨rfl, absdiffImg_self _, ?_, ?_⟩
  · rw [absdiffImg_self, cvThreshold_zero, dilateIter_zero, findContours_zero]
  · show contourFold contourArea MIN_CONTOUR_AREA
        (findContours h w
          (dilateIter h w
            (cvThreshold (absdiffImg (prep fa) (prep fa)) MOTION_THRESHOLD 255)
            2))
      = (false, 0, [])
    rw [absdiffImg_self, cvThreshold_zero, dilateIter_zero, findContours_zero]
    rfl

theorem C4_identical_frames_witness :
    detect 2 2 ((fun _ : Unit => (fun _ _ => 0 : Img)) ())
        ((fun _ : Unit => (fun _ _ => 0 : Img)) ()) = (false, 0, []) :=
  (C4_identical_frames 2 2 (fun _ : Unit => (fun _ _ => 0 : Img)) () ()
    rfl).2.2.2

/-- Counterexample to claim C5: `g2Block` differs from `g1Block` on a single
contiguous changed block — the solid 22×22 axis-aligned rectangle of pixels
with rows and columns in `[2, 24)` — of 484 < 500 pixels, each exceeding the
sensitivity; yet the two dilation iterations grow the region beyond
`MIN_CONTOUR_AREA` (here to the whole 26×26 grid, 676 pixels), so the
detector reports `motion_detected = true`, not `false` as the claim
demands. -/
theorem C5_counterexample :
    (pixList 26 26).filter (fg blockMask)
        = (pixList 26 26).filter
            (fun p => decide (2 ≤ p.1 ∧ p.1 < 24 ∧ 2 ≤ p.2 ∧ p.2 < 24))
    ∧ ((pixList 26 26).filter (fg blockMask)).length = 484
    ∧ 484 < MIN_CONTOUR_AREA
    ∧ (detect 26 26 g1Block g2Block).1 = true := by
  refine ⟨by decide, by decide, by decide, ?_⟩
  have hfull := blockMask_dilated_full
  have hcover : pixList 26 26 ⊆ component 26 26 (dilateIter 26 26 blockMask 2)
      (0, 0) := by
    intro q hq
    obtain ⟨hq1, hq2⟩ := (mem_pixList 26 26 q).mp hq
    have hmax : max q.1 q.2 ≤ 26 * 26 := Nat.max_le.mpr ⟨by omega, by omega⟩
    exact component_covers_of_full 26 26 _ hfull (26 * 26) q hq hmax
  have hlen : 500 ≤ (component 26 26 (dilateIter 26 26 blockMask 2)
      (0, 0)).length := by
    have hle := ((nodup_pixList 26 26).subperm hcover).length_le
    have h676 : (pixList 26 26).length = 676 := by decide
    omega
  have hmem : component 26 26 (dilateIter 26 26 blockMask 2) (0, 0)
      ∈ findContours 26 26 (dilateIter 26 26 blockMask 2) := by
    have hcons : pixList 26 26 = (0, 0) :: (pixList 26 26).tail := by decide
    rw [findContours, hcons]
    exact mem_componentsAux_head 26 26 _ (0, 0) _ []
      (hfull (0, 0) (by decide)) (List.not_mem_nil _)
  have hbig : ¬ contourArea (component 26 26 (dilateIter 26 26 blockMask 2)
      (0, 0)) < MIN_CONTOUR_AREA := by
    simp only [contourArea, MIN_CONTOUR_AREA]
    omega
  show (contourFold contourArea MIN_CONTOUR_AREA
      (findContours 26 26 (dilateIter 26 26 blockMask 2))).1 = true
  exact contourFold_true_of_mem _ _ _ _ hmem hbig

/-- Claim C5 as amended: a changed block small enough that it still covers
fewer than `MIN_CONTOUR_AREA` pixels after the two dilation iterations — in
general, a frame pair for which every contour of the dilated thresholded
mask has area strictly below `MIN_CONTOUR_AREA` — yields
`motion_detected = false`. -/
theorem C5_small_after_dilation (h w : ℕ) (g1 g2 : Img)
    (hsmall : ∀ c ∈ findContours h w
        (dilateIter h w (cvThreshold (absdiffImg g1 g2) MOTION_THRESHOLD 255) 2),
      contourArea c < MIN_CONTOUR_AREA) :
    (detect h w g1 g2).1 = false := by
  show (contourFold contourArea MIN_CONTOUR_AREA
      (findContours h w
        (dilateIter h w (cvThreshold (absdiffImg g1 g2) MOTION_THRESHOLD 255)
          2))).1 = false
  exact contourFold_false_of_all _ _ _ hsmall

theorem C5_small_after_dilation_witness :
    (∀ c ∈ findContours 6 6
        (dilateIter 6 6 (cvThreshold (absdiffImg (fun _ _ => 0)
            (fun i j => if i = 3 ∧ j = 3 then 255 else 0))
          MOTION_THRESHOLD 255) 2),
      contourArea c < MIN_CONTOUR_AREA)
    ∧ (detect 6 6 (fun _ _ => 0)
        (fun i j => if i = 3 ∧ j = 3 then 255 else 0)).1 = false :=
  ⟨by decide,
   C5_small_after_dilation 6 6 (fun _ _ => 0)
     (fun i j => if i = 3 ∧ j = 3 then 255 else 0) (by decide)⟩

/-- Counterexample to claim C9: the script passes `frame2` itself to every
drawing call (`cv2.rectangle(frame2, ...)`, `cv2.putText(frame2, ...)`) and
makes no copy, so the annotation stage mutates the captured frame: drawing
one detected region on an all-black captured frame leaves the `frame2`
buffer different from the captured frame (pixel (1, 1) has become green),
refuting "leaving the captured frame itself unmodified". -/
theorem C9_counterexample :
    (annotationStage id id [rect0] true ⟨frame0⟩).frame2 ≠ frame0 :=
  fun hEq => absurd (congrFun (congrFun hEq 1) 1) (by decide)

/-- Claim C9 as amended: on every iteration the Annotator draws its bounding
rectangles, timestamp, and (when motion is detected) the object-count status
string directly onto the captured frame itself — not onto a copy: after the
annotation stage the `frame2` buffer holds exactly the annotated frame, and
every pixel on the stroke of a detected region has been overwritten with the
fixed green color by the rectangle pass. -/
theorem C9_annotation_in_place (putTimestamp putStatus : CImg → CImg)
    (regions : List Rect) (md : Bool) (b : FrameBuffer) (i j : ℕ)
    (hstroke : ∃ r ∈ regions, onRectBorder r i j = true) :
    (annotationStage putTimestamp putStatus regions md b).frame2
      = annotateFrame putTimestamp putStatus regions md b.frame2
    ∧ (regions.foldl drawRectangle b.frame2) i j = GREEN :=
  ⟨rfl, foldl_drawRectangle_green i j regions b.frame2 hstroke⟩

theorem C9_annotation_in_place_witness :
    onRectBorder rect0 1 1 = true
    ∧ ([rect0].foldl drawRectangle frame0) 1 1 = GREEN :=
  ⟨by decide,
   (C9_annotation_in_place id id [rect0] true ⟨frame0⟩ 1 1
     ⟨rect0, List.mem_cons_self _ _, by decide⟩).2⟩

/-- Claim C6: `send_notification` never raises: a missing or empty password,
an authentication failure, a transport failure and an unexpected failure each
yield a `false` result together with a printed diagnostic (the function is
total, so every input reaches a return), and whenever the result is a
failure the caller leaves the cooldown timestamp unchanged. -/
theorem C6_send_failure_swallowed (password : Option String)
    (outcome : SendOutcome) (md : Bool) (now last : ℤ) :
    ((password = none ∨ password = some "") →
      (send_notification password outcome).1 = false
        ∧ (send_notification password outcome).2 ≠ [])
    ∧ (outcome ≠ .success →
      (send_notification password outcome).1 = false
        ∧ (send_notification password outcome).2 ≠ [])
    ∧ ((send_notification password outcome).1 = false →
      (notificationStep md now (send_notification password outcome).1 last).1
        = last) := by
  refine ⟨?_, ?_, ?_⟩
  · intro hpw
    simp [send_notification, hpw]
  · intro hout
    by_cases hpw : password = none ∨ password = some ""
    · simp [send_notification, hpw]
    · cases outcome with
      | success => exact absurd rfl hout
      | authFailure => simp [send_notification, hpw]
      | smtpFailure => simp [send_notification, hpw]
      | unexpectedFailure => simp [send_notification, hpw]
  · intro hfail
    rw [hfail]
    exact notificationStep_failed md now last

theorem C6_send_failure_swallowed_witness :
    (send_notification none SendOutcome.authFailure).1 = false
    ∧ (send_notification none SendOutcome.authFailure).2 ≠ []
    ∧ (notificationStep true 100
        (send_notification none SendOutcome.authFailure).1 5).1 = 5 :=
  ⟨((C6_send_failure_swallowed none SendOutcome.authFailure true 100 5).1
      (Or.inl rfl)).1,
   ((C6_send_failure_swallowed none SendOutcome.authFailure true 100 5).1
      (Or.inl rfl)).2,
   (C6_send_failure_swallowed none SendOutcome.authFailure true 100 5).2.2
     (((C6_send_failure_swallowed none SendOutcome.authFailure true 100 5).1
        (Or.inl rfl)).1)⟩

/-- Claim C7: in the thresholded difference mask, a pixel is the maximum
value 255 iff its absolute difference strictly exceeds the sensitivity
`MOTION_THRESHOLD` (= 25), and 0 otherwise. -/
theorem C7_threshold_semantics (g1 g2 : Img) (i j : ℕ) :
    (cvThreshold (absdiffImg g1 g2) MOTION_THRESHOLD 255 i j = 255 ↔
      MOTION_THRESHOLD < absdiffImg g1 g2 i j)
    ∧ (cvThreshold (absdiffImg g1 g2) MOTION_THRESHOLD 255 i j = 0 ↔
      ¬ MOTION_THRESHOLD < absdiffImg g1 g2 i j)
    ∧ MOTION_THRESHOLD = 25 := by
  refine ⟨?_, ?_, rfl⟩ <;>
    by_cases hlt : MOTION_THRESHOLD < absdiffImg g1 g2 i j <;>
    simp [cvThreshold, hlt]

/-- Claim C8: on every exit path on which the camera was opened — first-read
failure at startup, end of stream, quit key, or an unhandled fault — the
trace releases the camera and destroys the display windows before the
process exits. -/
theorem C8_cleanup_on_all_exits (s : Scenario) (hopen : cameraOpened s = true) :
    ∃ pre, programTrace s = pre ++ [Event.processExit]
      ∧ Event.releaseCamera ∈ pre ∧ Event.destroyWindows ∈ pre := by
  cases s with
  | openFail => simp [cameraOpened] at hopen
  | firstReadFail =>
    exact ⟨[.openCamera, .releaseCamera, .destroyWindows], rfl,
      by decide, by decide⟩
  | run e =>
    exact ⟨[.openCamera, .releaseCamera, .destroyWindows], rfl,
      by decide, by decide⟩

theorem C8_cleanup_on_all_exits_witness :
    cameraOpened (Scenario.run LoopEnd.quitKey) = true
    ∧ ∃ pre, programTrace (Scenario.run LoopEnd.quitKey)
          = pre ++ [Event.processExit]
        ∧ Event.releaseCamera ∈ pre ∧ Event.destroyWindows ∈ pre :=
  ⟨rfl, C8_cleanup_on_all_exits (Scenario.run LoopEnd.quitKey) rfl⟩

/-- Claim C10: `last_notification_time` starts at 0, so whenever the current
clock value exceeds the cooldown, the first iteration that detects motion
passes the gate and invokes the notifier. -/
theorem C10_first_motion_always_notifies (now : ℤ) (sendOk : Bool)
    (hnow : now > NOTIFICATION_DELAY) :
    initialLastNotificationTime = 0
    ∧ (notificationStep true now sendOk initialLastNotificationTime).2.1
        = true := by
  refine ⟨rfl, ?_⟩
  have hgate : now - initialLastNotificationTime > NOTIFICATION_DELAY := by
    simp only [initialLastNotificationTime]
    omega
  simp [notificationStep, hgate]

theorem C10_first_motion_always_notifies_witness :
    ((61 : ℤ) > NOTIFICATION_DELAY)
    ∧ (notificationStep true 61 true initialLastNotificationTime).2.1 = true :=
  ⟨by decide, (C10_first_motion_always_notifies 61 true (by decide)).2⟩

end NewMotion
